import Mathlib

/-!
Verification of the MySQL Assistant Kodi addon
(`script.program.mysqlassistant`).

This file shallowly embeds the parts of the addon that the specification
talks about:

* `resources/lib/db_checker.py` — the Kodi database version map, the
  expected-version lookup, version compatibility classification, and the
  database discovery / check pipeline;
* `resources/lib/migrator.py` — the SQLite → MySQL migration pipeline: the
  source-path resolution, the per-table transfer loop with its
  skip / insert / rollback behaviour, and the ignore-on-duplicate insert.

Python dictionaries are embedded as association lists (`List (κ × ν)`,
looked up with `List.lookup`, first binding wins, keys distinct in all the
dictionaries the program builds).  Python `sorted` on integer keys is
embedded as `List.insertionSort (· ≤ ·)`.  Python string operations are
re-implemented over `String.data` in the `Py` namespace below, because
Lean's built-in `String` operations are opaque to the kernel.  Effects that
live outside the program (the MySQL server, the filesystem answering a
glob) are passed in explicitly as values describing the environment's
answers.
-/

namespace MysqlAssistant

/-! ## Python string primitives

Lean's own `String.replace`, `String.startsWith`, `String.toInt?` and
friends are compiled primitives that the kernel cannot evaluate, so the
Python string operations the addon uses are re-implemented here by
structural recursion over `String.data`.  Each definition states which
Python operation it embeds. -/

namespace Py

/-- `a.startswith(b)` on the underlying character lists. -/
def leadsWith : List Char → List Char → Bool
  | _, [] => true
  | [], _ :: _ => false
  | c :: cs, d :: ds => c = d && leadsWith cs ds

/-- Python `s.startswith(pat)`. -/
def startsWith (s pat : String) : Bool :=
  leadsWith s.data pat.data

/-- Replace every non-overlapping occurrence of `old` in `s`, scanning
left to right — the behaviour of Python `s.replace(old, new)` for a
non-empty `old`.  The fuel argument is the length of the remaining text;
each step consumes at least one character, so the fuel never runs out. -/
def replaceAux (old new : List Char) : Nat → List Char → List Char
  | _, [] => []
  | 0, s => s
  | fuel + 1, c :: cs =>
      if old ≠ [] && leadsWith (c :: cs) old then
        new ++ replaceAux old new fuel ((c :: cs).drop old.length)
      else
        c :: replaceAux old new fuel cs

/-- Python `s.replace(old, new)` (for the non-empty `old` the addon
always passes). -/
def replace (s old new : String) : String :=
  String.mk (replaceAux old.data new.data s.data.length s.data)

/-- The numeric value of a non-empty all-digit character list, else
`none`. -/
def digitsVal (ds : List Char) : Option Nat :=
  if ds ≠ [] && ds.all Char.isDigit then
    some (ds.foldl (fun a c => a * 10 + (c.toNat - '0'.toNat)) 0)
  else
    none

/-- Python `int(s)` for a decimal string: surrounding whitespace is
stripped, an optional single sign is allowed, and the rest must be
non-empty digits; anything else raises `ValueError`, embedded as `none`.
(Python's tolerance of `_` digit grouping is not modelled; no input here
contains it.) -/
def toIntOption (s : String) : Option Int :=
  let t := ((s.data.dropWhile Char.isWhitespace).reverse.dropWhile
    Char.isWhitespace).reverse
  match t with
  | '-' :: ds => (digitsVal ds).map (fun n => -(n : Int))
  | '+' :: ds => (digitsVal ds).map (fun n => (n : Int))
  | ds => (digitsVal ds).map (fun n => (n : Int))

/-- Python `s.strip()`. -/
def strip (s : String) : String :=
  String.mk (((s.data.dropWhile Char.isWhitespace).reverse.dropWhile
    Char.isWhitespace).reverse)

/-- Lexicographic comparison of character lists by code point — the order
Python `sorted` applies to `str` values. -/
def lexLe : List Char → List Char → Bool
  | [], _ => true
  | _ :: _, [] => false
  | c :: cs, d :: ds => if c = d then lexLe cs ds else decide (c < d)

/-- Python `a <= b` on strings. -/
def strLe (a b : String) : Bool :=
  lexLe a.data b.data

end Py

/-! ## db_checker.py -/

/-- One value of `KODI_DB_VERSION_MAP`: a Python `Dict[str, str]` from
library kind (`"MyVideos"` / `"MyMusic"`) to expected schema version
token, embedded as an association list. -/
abbrev VersionEntry := List (String × String)

/-- A Python `Dict[int, Dict[str, str]]` such as `KODI_DB_VERSION_MAP`,
embedded as an association list in insertion order. -/
abbrev VersionMap := List (Int × VersionEntry)

/-- `KODI_DB_VERSION_MAP` from `db_checker.py`, lines 22–28, in the
source's literal order. -/
def KODI_DB_VERSION_MAP : VersionMap :=
  [ (21, [("MyVideos", "122"), ("MyMusic", "84")])
  , (20, [("MyVideos", "121"), ("MyMusic", "82")])
  , (19, [("MyVideos", "119"), ("MyMusic", "82")])
  , (18, [("MyVideos", "116"), ("MyMusic", "72")])
  , (17, [("MyVideos", "107"), ("MyMusic", "60")]) ]

/-- `_parse_kodi_major(version)` from `db_checker.py`, lines 38–44:
`None` or the empty string is falsy and yields `None`; otherwise the text
before the first `.` (i.e. `version.split(".")[0]`) is parsed with `int(...)`, and a parse failure
(`ValueError`) yields `None`.  (`version.split(".")` is never empty, so
the `IndexError` branch is unreachable.) -/
def parseKodiMajor (version : Option String) : Option Int :=
  match version with
  | none => none
  | some s =>
      if s = "" then none
      else Py.toIntOption (String.mk (s.data.takeWhile (· ≠ '.')))

/-- The `for candidate in sorted_majors` loop of
`_expected_versions_for` (`db_checker.py`, lines 55–59): walk the
ascending key list, remembering the last candidate with
`major >= candidate`; `break` (and keep the current `chosen`) at the
first candidate exceeding `major`. -/
def scanChosen (major : Int) (chosen : Int) : List Int → Int
  | [] => chosen
  | c :: rest => if major ≥ c then scanChosen major c rest else chosen

/-- The ascending key list `sorted_majors = sorted(KODI_DB_VERSION_MAP.keys())`
(`db_checker.py`, line 50). -/
def sortedMajors (m : VersionMap) : List Int :=
  (m.map Prod.fst).insertionSort (· ≤ ·)

/-- The `chosen` key computed by `_expected_versions_for`
(`db_checker.py`, lines 51–61), for a non-empty map: the last sorted key
for `major is None`; otherwise the loop starting from the smallest key,
followed by the final clamp `if major >= sorted_majors[-1]`.
The Python indexings `sorted_majors[0]` / `sorted_majors[-1]` are embedded
with `headD 0` / `getLastD 0`; the defaults are never consulted because the
function is only invoked after the emptiness guard. -/
def chooseKey (m : VersionMap) (major : Option Int) : Int :=
  let s := sortedMajors m
  match major with
  | none => s.getLastD 0
  | some v =>
      let c := scanChosen v (s.headD 0) s
      if v ≥ s.getLastD 0 then s.getLastD 0 else c

/-- `_expected_versions_for(major)` from `db_checker.py`, lines 47–62:
`{}` for an empty map, otherwise `KODI_DB_VERSION_MAP.get(chosen, {})`. -/
def expectedVersionsFor (m : VersionMap) (major : Option Int) : VersionEntry :=
  if m = [] then []
  else (m.lookup (chooseKey m major)).getD []

/-- `get_kodi_db_names()` from `db_checker.py`, lines 98–100. -/
def kodiDbNames : List String := ["MyVideos", "MyMusic"]

/-- `get_kodi_db_info()` from `db_checker.py`, lines 109–115, with the
running Kodi version supplied as an argument (`get_kodi_version()` reads
the Kodi runtime): each standard kind mapped to the expected version
token, defaulting to `"0"`. -/
def kodiDbInfo (m : VersionMap) (kodiVersion : String) : VersionEntry :=
  let versions := expectedVersionsFor m (parseKodiMajor (some kodiVersion))
  kodiDbNames.map (fun p => (p, (versions.lookup p).getD "0"))

/-- Lines 128–141 of `is_version_compatible` for an already-selected kind:
parse the trailing version number of the database name (`ValueError` is
incompatible), look up the expected token (a missing or unparsable
expected token is compatible), and compare. -/
def checkSuffix (expected : VersionEntry) (kind : String) (dbName : String) : Bool :=
  match Py.toIntOption (Py.replace dbName kind "") with
  | none => false
  | some dbVersion =>
      match expected.lookup kind with
      | none => true
      | some expectedVersion =>
          match Py.toIntOption expectedVersion with
          | none => true
          | some expectedInt => dbVersion ≥ expectedInt

/-- `is_version_compatible(db_name, kodi_version)` from `db_checker.py`,
lines 118–141: pick the kind from the name's leading text (anything else
is incompatible), then compare the name's version number against the
expected token for the running Kodi version. -/
def isVersionCompatible (m : VersionMap) (dbName : String) (kodiVersion : String) : Bool :=
  let expected := expectedVersionsFor m (parseKodiMajor (some kodiVersion))
  if Py.startsWith dbName "MyVideos" then
    checkSuffix expected "MyVideos" dbName
  else if Py.startsWith dbName "MyMusic" then
    checkSuffix expected "MyMusic" dbName
  else
    false

/-- The MySQL server as `get_existing_kodi_dbs` experiences it: either the
`connect` call (or a later cursor operation) raises, carrying some detail
text, or the server answers `SHOW DATABASES` queries from a list of
database names. -/
inductive ServerState where
  | connFail (detail : String)
  | ok (databases : List String)
deriving DecidableEq, Repr

/-- `get_existing_kodi_dbs(...)` from `db_checker.py`, lines 65–83:
on any exception the error is logged and `{}` is returned; otherwise the
names matching `LIKE 'MyVideos%'` and then those matching
`LIKE 'MyMusic%'` are paired with the name minus the kind text
(`row[0].replace(...)`) and merged into one dict. -/
def getExistingKodiDbs (server : ServerState) : List (String × String) :=
  match server with
  | .connFail _ => []
  | .ok databases =>
      let videoDbs := (databases.filter (fun n => Py.startsWith n "MyVideos")).map
        (fun n => (n, Py.replace n "MyVideos" ""))
      let musicDbs := (databases.filter (fun n => Py.startsWith n "MyMusic")).map
        (fun n => (n, Py.replace n "MyMusic" ""))
      videoDbs ++ musicDbs

/-- The localized message with id 30012 that `check_kodi_dbs` puts in its
`"error"` result (`ADDON.getLocalizedString(30012)`); only its identity
matters here. -/
def localized30012 : String := "localized:30012"

/-- The value of `check_kodi_dbs`: a dict with exactly one of the keys
`"error"`, `"incompatible"`, `"compatible"` (`db_checker.py`,
lines 150–161). -/
inductive CheckResult where
  | err (msg : String)
  | incompatible (dbs : List (String × String))
  | compatible (dbs : List (String × String))
deriving DecidableEq, Repr

/-- `check_kodi_dbs(...)` from `db_checker.py`, lines 144–161, with the
server state and the running Kodi version supplied as arguments:
an empty discovery dict yields `{"error": ...}`; otherwise each
discovered database whose kind has an expected entry and which fails
`is_version_compatible` is collected, and the result is the incompatible
dict when non-empty, else the full discovery dict. -/
def checkKodiDbs (server : ServerState) (kodiVersion : String) : CheckResult :=
  let existing := getExistingKodiDbs server
  let expectedInfo := kodiDbInfo KODI_DB_VERSION_MAP kodiVersion
  if existing = [] then
    .err localized30012
  else
    let incompat := existing.filter (fun p =>
      let kind := if Py.startsWith p.1 "MyVideos" then "MyVideos" else "MyMusic"
      (expectedInfo.lookup kind).isSome
        && !(isVersionCompatible KODI_DB_VERSION_MAP p.1 kodiVersion))
    if incompat = [] then .compatible existing else .incompatible incompat

/-! ## migrator.py

The migration pipeline copies rows from a local SQLite file into a MySQL
schema.  The SQLite file's contents and the MySQL server's state are
environment data and are passed in as explicit values.  Cell values are
embedded as `Int` (their identity, not their type, is what the claims
are about). -/

/-- A cell value in either database. -/
abbrev Val := Int

/-- One MySQL table, as the target server holds it.  `keyCols` gives the
positions of the primary/unique key columns inside an inserted tuple —
part of the target schema, which `migrate_database` assumes already
exists.  `rows` is the table's current row set in insertion order. -/
structure MTable where
  name : String
  keyCols : List Nat
  rows : List (List Val)
deriving DecidableEq, Repr

/-- The target MySQL database: its tables. -/
abbrev MState := List MTable

/-- The key cells of a tuple, per the table's key columns. -/
def rowKey (keyCols : List Nat) (r : List Val) : List Val :=
  keyCols.map (fun i => r.getD i 0)

/-- Does the table already hold a row whose primary/unique key collides
with `r`? -/
def hasKeyOf (t : MTable) (r : List Val) : Bool :=
  t.rows.any (fun r0 => rowKey t.keyCols r0 == rowKey t.keyCols r)

/-- Modelled from the spec: the MySQL effect of one row of the
`INSERT IGNORE` statement built by `_build_insert_sql` (`migrator.py`,
lines 241–245) — "if a row with a colliding primary/unique key already
exists in the target, that row is left untouched and the new row is
silently dropped"; otherwise the row is appended.  (The SQL execution
itself happens inside the MySQL server, outside this repository.) -/
def insertIgnore (t : MTable) (r : List Val) : MTable :=
  if hasKeyOf t r then t else { t with rows := t.rows ++ [r] }

/-- `cursor.executemany(insert_sql, values)` (`migrator.py`, line 190):
every tuple of `values` is inserted in order under the ignore-on-duplicate
policy. -/
def insertIgnoreAll (t : MTable) (vs : List (List Val)) : MTable :=
  vs.foldl insertIgnore t

/-- `_mysql_table_exists(cursor, table)` from `migrator.py`,
lines 236–238, against the modelled server state. -/
def mysqlTableExists (st : MState) (name : String) : Bool :=
  st.any (fun t => t.name == name)

/-- The target table currently named `name`, if any. -/
def getTable (st : MState) (name : String) : Option MTable :=
  st.find? (fun t => t.name == name)

/-- The server state after the batch insert into the table named `name`
commits. -/
def applyInsert (st : MState) (name : String) (vs : List (List Val)) : MState :=
  st.map (fun t => if t.name = name then insertIgnoreAll t vs else t)

/-- One SQLite row: `sqlite3.Row` with `row_factory`, a mapping from
column name to value. -/
abbrev SRow := List (String × Val)

/-- One table of the SQLite source file: its name and its full row list
(`SELECT * FROM table`). -/
structure STable where
  name : String
  rows : List SRow
deriving DecidableEq, Repr

/-- `columns = list(rows[0].keys())` (`migrator.py`, line 186). -/
def sColumns (t : STable) : List String :=
  (t.rows.headD []).map Prod.fst

/-- `tuple(row[col] for col in columns)` (`migrator.py`, line 188). -/
def rowTuple (cols : List String) (r : SRow) : List Val :=
  cols.map (fun c => (r.lookup c).getD 0)

/-- `values = [tuple(row[col] for col in columns) for row in rows]`. -/
def tableValues (t : STable) : List (List Val) :=
  t.rows.map (rowTuple (sColumns t))

/-- What the loop body of `migrate_database` does with one source table:
skipped because missing in MySQL (lines 180–182), passed over because the
source has no rows (lines 184–185), migrated and counted (lines 190–193),
or failed and rolled back (lines 194–196). -/
inductive TableOutcome where
  | missingSkipped
  | emptyNoop
  | migrated (rowCount : Nat)
  | failed
deriving DecidableEq, Repr

/-- One iteration of the `for table in _iter_sqlite_tables(...)` loop
(`migrator.py`, lines 179–196).  `failing` lists the tables whose
`executemany` raises (an environment fact); for such a table the
transaction is rolled back, so the server state is unchanged. -/
def migrateTable (failing : List String) (st : MState) (t : STable) :
    MState × TableOutcome :=
  if ¬ mysqlTableExists st t.name then (st, .missingSkipped)
  else if t.rows = [] then (st, .emptyNoop)
  else if t.name ∈ failing then (st, .failed)
  else (applyInsert st t.name (tableValues t), .migrated (tableValues t).length)

/-- The whole per-table loop of `migrate_database`, returning the final
server state and each table's outcome in order. -/
def migrateLoop (failing : List String) (src : List STable) (st : MState) :
    MState × List (String × TableOutcome) :=
  match src with
  | [] => (st, [])
  | t :: rest =>
      let step := migrateTable failing st t
      let next := migrateLoop failing rest step.1
      (next.1, (t.name, step.2) :: next.2)

/-- The `migrated_tables` counter: incremented exactly once per
successfully committed table (`migrator.py`, line 192). -/
def countMigrated (outs : List (String × TableOutcome)) : Nat :=
  outs.countP (fun p => match p.2 with | .migrated _ => true | _ => false)

/-- The environment facts `migrate_database` runs against: whether a
connector module was importable, whether `os.path.exists(sqlite_path)`
holds, whether connecting to the server (including
`_ensure_database_exists`) succeeds, and which tables' batch inserts
raise. -/
structure MigrateEnv where
  connectorAvailable : Bool
  sourceExists : Bool
  connectOk : Bool
  failingTables : List String
deriving DecidableEq, Repr

/-- The observable outcome of `migrate_database`: its return value, and
whether a server connection was ever attempted. -/
structure MigResult where
  success : Bool
  connAttempted : Bool
  finalState : MState
  outcomes : List (String × TableOutcome)
  migratedTables : Nat
deriving DecidableEq, Repr

/-- `migrate_database(sqlite_path, mysql_params)` from `migrator.py`,
lines 150–208: four guards in source order (missing connector, missing
source file, falsy database name, connection failure) each return
`False`; otherwise the per-table loop runs and the function returns
`True` regardless of individual table outcomes. -/
def migrateDatabase (env : MigrateEnv) (databaseName : Option String)
    (src : List STable) (st : MState) : MigResult :=
  if ¬ env.connectorAvailable then ⟨false, false, st, [], 0⟩
  else if ¬ env.sourceExists then ⟨false, false, st, [], 0⟩
  else if (databaseName.getD "") = "" then ⟨false, false, st, [], 0⟩
  else if ¬ env.connectOk then ⟨false, true, st, [], 0⟩
  else
    let run := migrateLoop env.failingTables src st
    ⟨true, true, run.1, run.2, countMigrated run.2⟩

/-- `_resolve_sqlite_path(pattern, default_prefix)` from `migrator.py`,
lines 111–120, with the filesystem's answer to the composed glob pattern
passed in as `found`: `sorted(matches)[-1]` when non-empty, `None`
otherwise.  (The folder/filename split and the `special://` translation
only determine which pattern the glob receives; they do not affect which
of its matches is chosen.) -/
def resolveSqlitePath (found : List String) : Option String :=
  (found.insertionSort (fun a b => Py.strLe a b)).getLast?

/-- `config.get(key)` filtered as `_resolve_database_name` does on
lines 101–104: a string whose `strip()` is non-empty, returned
stripped. -/
def pickStr (v : Option String) : Option String :=
  match v with
  | some s => if Py.strip s ≠ "" then some (Py.strip s) else none
  | none => none

/-- The library configuration dict passed to `_resolve_database_name`,
restricted to the keys it reads. -/
structure LibConfig where
  database : Option String := none
  name : Option String := none
  dbname : Option String := none
  version : Option String := none
deriving DecidableEq, Repr

/-- `_resolve_database_name(config, default_prefix)` from `migrator.py`,
lines 98–108: the first of `database`, `name`, `dbname` holding a
non-blank string (stripped), else the default kind text concatenated with
the raw `version` value when that is non-blank, else `None`. -/
def resolveDatabaseName (config : Option LibConfig) (defaultKind : String) :
    Option String :=
  match config with
  | none => none
  | some c =>
      match pickStr c.database with
      | some s => some s
      | none =>
          match pickStr c.name with
          | some s => some s
          | none =>
              match pickStr c.dbname with
              | some s => some s
              | none =>
                  match c.version with
                  | some suffix =>
                      if Py.strip suffix ≠ "" then some (defaultKind ++ suffix)
                      else none
                  | none => none

/-- `", ".join(...)` — Python `str.join`. -/
def joinSep (sep : String) : List String → String
  | [] => ""
  | [x] => x
  | x :: y :: rest => x ++ sep ++ joinSep sep (y :: rest)

/-- `_build_insert_sql(table, columns)` from `migrator.py`,
lines 241–245: the ignore-on-duplicate insert statement text. -/
def buildInsertSql (table : String) (columns : List String) : String :=
  let columnList := joinSep ", " (columns.map (fun c => "`" ++ c ++ "`"))
  let placeholders := joinSep ", " (columns.map (fun _ => "%s"))
  "INSERT IGNORE INTO `" ++ table ++ "` (" ++ columnList ++ ") VALUES ("
    ++ placeholders ++ ")"

/-- Truthiness of an optional string setting, as `if not
server_params.get(key)` tests it: present and non-empty. -/
def truthy (v : Option String) : Bool :=
  match v with
  | some s => s ≠ ""
  | none => false

/-- The server-connection settings read by `_build_mysql_params`
(`migrator.py`, lines 123–147). -/
structure ServerParams where
  host : Option String := none
  user : Option String := none
  password : Option String := none
  port : Option String := none
deriving DecidableEq, Repr

/-- How `_build_mysql_params` can conclude. -/
inductive ParamsOutcome where
  | ok
  | missingDetails
  | badPort
deriving DecidableEq, Repr

/-- `_build_mysql_params(server_params, database)` from `migrator.py`,
lines 123–147: any falsy `host`/`user`/`password` is an error; a truthy
`port` that `int(...)` cannot parse is an error; otherwise the parameter
dict is built. -/
def buildMysqlParams (sp : ServerParams) : ParamsOutcome :=
  if ¬ (truthy sp.host ∧ truthy sp.user ∧ truthy sp.password) then .missingDetails
  else if truthy sp.port ∧ (Py.toIntOption (sp.port.getD "")).isNone then .badPort
  else .ok

/-- The reasons `_migrate_kodi_library` / `migrate_database` stop short
of (or inside) the table loop. -/
inductive LibErr where
  | connectorMissing
  | missingDbName
  | sourceNotFound
  | missingParams
  | badPort
  | sourceGone
  | connectFailed
deriving DecidableEq, Repr

/-- Everything outside the program that one `_migrate_kodi_library` run
observes. -/
structure LibEnv where
  connectorAvailable : Bool
  config : Option LibConfig
  globMatches : List String
  serverParams : ServerParams
  sourceExists : Bool
  connectOk : Bool
  failingTables : List String
  sourceTables : List STable
  targetState : MState
deriving Repr

/-- The observable outcome of `_migrate_kodi_library`. -/
structure LibResult where
  success : Bool
  connAttempted : Bool
  error : Option LibErr
  finalState : MState
  outcomes : List (String × TableOutcome)
  migratedTables : Nat
deriving DecidableEq, Repr

/-- `_migrate_kodi_library(...)` from `migrator.py`, lines 71–95: guard
on the connector module, resolve the target database name, resolve the
SQLite source path, build the connection parameters, and only then run
`migrate_database` (which is the first point at which any
`connector.connect` call happens). -/
def migrateKodiLibrary (env : LibEnv) (defaultKind : String) : LibResult :=
  if ¬ env.connectorAvailable then
    ⟨false, false, some .connectorMissing, env.targetState, [], 0⟩
  else
    match resolveDatabaseName env.config defaultKind with
    | none => ⟨false, false, some .missingDbName, env.targetState, [], 0⟩
    | some dbName =>
        match resolveSqlitePath env.globMatches with
        | none => ⟨false, false, some .sourceNotFound, env.targetState, [], 0⟩
        | some _path =>
            match buildMysqlParams env.serverParams with
            | .missingDetails =>
                ⟨false, false, some .missingParams, env.targetState, [], 0⟩
            | .badPort => ⟨false, false, some .badPort, env.targetState, [], 0⟩
            | .ok =>
                let r := migrateDatabase
                  ⟨env.connectorAvailable, env.sourceExists, env.connectOk,
                    env.failingTables⟩
                  (some dbName) env.sourceTables env.targetState
                ⟨r.success, r.connAttempted,
                  if r.success then none
                  else if ¬ env.sourceExists then some .sourceGone
                  else some .connectFailed,
                  r.finalState, r.outcomes, r.migratedTables⟩

/-! ## Lemmas about the expected-version lookup -/

theorem headD_mem {α : Type} (s : List α) (d : α) (h : s ≠ []) : s.headD d ∈ s := by
  cases s with
  | nil => exact absurd rfl h
  | cons x rest => simp

theorem getLastD_mem {α : Type} (s : List α) (d : α) (h : s ≠ []) :
    s.getLastD d ∈ s := by
  induction s generalizing d with
  | nil => exact absurd rfl h
  | cons x rest ih =>
      rw [List.getLastD_cons]
      cases hr : rest with
      | nil => simp [hr]
      | cons y t =>
          have := ih (d := x) (by simp [hr])
          rw [hr] at this
          exact List.mem_cons_of_mem x (hr ▸ this)

theorem sorted_headD_le (s : List Int) (hs : s.Sorted (· ≤ ·)) :
    ∀ k ∈ s, s.headD 0 ≤ k := by
  cases s with
  | nil => intro k hk; simp at hk
  | cons x rest =>
      intro k hk
      rcases List.mem_cons.mp hk with h | h
      · simp [h]
      · exact List.rel_of_sorted_cons hs k h

theorem sorted_le_getLastD_any : ∀ (s : List Int), s.Sorted (· ≤ ·) →
    ∀ k ∈ s, ∀ d : Int, k ≤ s.getLastD d := by
  intro s
  induction s with
  | nil => intro _ k hk; simp at hk
  | cons x rest ih =>
      intro hs k hk d
      rw [List.getLastD_cons]
      rcases List.mem_cons.mp hk with h | h
      · subst h
        cases rest with
        | nil => simp
        | cons y t =>
            have hmem : (y :: t).getLastD k ∈ (y :: t) :=
              getLastD_mem _ k (by simp)
            exact List.rel_of_sorted_cons hs _ hmem
      · exact ih (List.sorted_cons.mp hs).2 k h x

theorem sorted_le_getLastD (s : List Int) (hs : s.Sorted (· ≤ ·)) :
    ∀ k ∈ s, k ≤ s.getLastD 0 :=
  fun k hk => sorted_le_getLastD_any s hs k hk 0

theorem scanChosen_of_all_lt (v c : Int) (s : List Int) (h : ∀ x ∈ s, v < x) :
    scanChosen v c s = c := by
  cases s with
  | nil => rfl
  | cons x rest =>
      have hx : ¬ v ≥ x := not_le.mpr (h x (by simp))
      simp only [scanChosen, if_neg hx]

theorem scanChosen_le (v : Int) :
    ∀ (s : List Int) (c : Int), c ≤ v → scanChosen v c s ≤ v := by
  intro s
  induction s with
  | nil => intro c hc; simpa [scanChosen] using hc
  | cons x rest ih =>
      intro c hc
      by_cases hx : v ≥ x
      · simp only [scanChosen, if_pos hx]; exact ih x hx
      · simp only [scanChosen, if_neg hx]; exact hc

theorem scanChosen_mem (v : Int) :
    ∀ (s : List Int) (c : Int), scanChosen v c s = c ∨ scanChosen v c s ∈ s := by
  intro s
  induction s with
  | nil => intro c; left; rfl
  | cons x rest ih =>
      intro c
      by_cases hx : v ≥ x
      · simp only [scanChosen, if_pos hx]
        rcases ih x with h | h
        · right; simp [h]
        · right; exact List.mem_cons_of_mem x h
      · left; simp only [scanChosen, if_neg hx]

theorem scanChosen_lower (v : Int) :
    ∀ (s : List Int) (c : Int), s.Sorted (· ≤ ·) → (∀ x ∈ s, c ≤ x) →
      c ≤ scanChosen v c s := by
  intro s
  induction s with
  | nil => intro c _ _; simp [scanChosen]
  | cons x rest ih =>
      intro c hs hc
      by_cases hx : v ≥ x
      · simp only [scanChosen, if_pos hx]
        have hcx : c ≤ x := hc x (by simp)
        have : x ≤ scanChosen v x rest :=
          ih x (List.sorted_cons.mp hs).2 (List.rel_of_sorted_cons hs)
        exact le_trans hcx this
      · simp only [scanChosen, if_neg hx]
        exact le_refl c

theorem scanChosen_ge (v : Int) :
    ∀ (s : List Int) (c : Int), s.Sorted (· ≤ ·) →
      ∀ k ∈ s, k ≤ v → k ≤ scanChosen v c s := by
  intro s
  induction s with
  | nil => intro c _ k hk; simp at hk
  | cons x rest ih =>
      intro c hs k hk hkv
      rcases List.mem_cons.mp hk with h | h
      · subst h
        have hx : v ≥ k := hkv
        simp only [scanChosen, if_pos hx]
        exact scanChosen_lower v rest k (List.sorted_cons.mp hs).2
          (List.rel_of_sorted_cons hs)
      · by_cases hx : v ≥ x
        · simp only [scanChosen, if_pos hx]
          exact ih x (List.sorted_cons.mp hs).2 k h hkv
        · exfalso
          exact hx (le_trans (List.rel_of_sorted_cons hs k h) hkv)

theorem sortedMajors_sorted (m : VersionMap) :
    (sortedMajors m).Sorted (· ≤ ·) :=
  List.sorted_insertionSort _ _

theorem sortedMajors_perm (m : VersionMap) :
    (sortedMajors m).Perm (m.map Prod.fst) :=
  List.perm_insertionSort _ _

theorem sortedMajors_ne_nil (m : VersionMap) (hm : m ≠ []) :
    sortedMajors m ≠ [] := by
  intro h
  have hlen := (sortedMajors_perm m).length_eq
  rw [h] at hlen
  simp only [List.length_nil, List.length_map] at hlen
  exact hm (List.length_eq_zero.mp hlen.symm)

/-- The key chosen by `_expected_versions_for` for a parsed major `v` is a
map key; it is the greatest key `≤ v` when one exists; and when `v` lies
below every key it is a lower bound of all keys (hence the smallest). -/
theorem chooseKey_some_spec (m : VersionMap) (hm : m ≠ []) (v : Int) :
    chooseKey m (some v) ∈ m.map Prod.fst
    ∧ ((∃ k ∈ m.map Prod.fst, k ≤ v) →
        chooseKey m (some v) ≤ v
        ∧ ∀ k ∈ m.map Prod.fst, k ≤ v → k ≤ chooseKey m (some v))
    ∧ ((∀ k ∈ m.map Prod.fst, v < k) →
        ∀ k ∈ m.map Prod.fst, chooseKey m (some v) ≤ k) := by
  have hs := sortedMajors_sorted m
  have hperm := sortedMajors_perm m
  have hne := sortedMajors_ne_nil m hm
  have hmem : ∀ x, x ∈ sortedMajors m ↔ x ∈ m.map Prod.fst :=
    fun x => hperm.mem_iff
  by_cases hv : v ≥ (sortedMajors m).getLastD 0
  · have hc : chooseKey m (some v) = (sortedMajors m).getLastD 0 := by
      simp only [chooseKey, if_pos hv]
    refine ⟨?_, ?_, ?_⟩
    · rw [hc, ← hmem]; exact getLastD_mem _ 0 hne
    · intro _
      refine ⟨hc ▸ hv, ?_⟩
      intro k hk _
      rw [hc]
      exact sorted_le_getLastD _ hs k ((hmem k).mpr hk)
    · intro hall
      exfalso
      have hlast := getLastD_mem (sortedMajors m) 0 hne
      exact absurd hv (not_le.mpr (hall _ ((hmem _).mp hlast)))
  · have hc : chooseKey m (some v)
        = scanChosen v ((sortedMajors m).headD 0) (sortedMajors m) := by
      simp only [chooseKey, if_neg hv]
    refine ⟨?_, ?_, ?_⟩
    · rw [hc, ← hmem]
      rcases scanChosen_mem v (sortedMajors m) ((sortedMajors m).headD 0) with h | h
      · rw [h]; exact headD_mem _ 0 hne
      · exact h
    · rintro ⟨k0, hk0, hk0v⟩
      have hhead : (sortedMajors m).headD 0 ≤ v :=
        le_trans (sorted_headD_le _ hs k0 ((hmem k0).mpr hk0)) hk0v
      constructor
      · rw [hc]; exact scanChosen_le v _ _ hhead
      · intro k hk hkv
        rw [hc]
        exact scanChosen_ge v _ _ hs k ((hmem k).mpr hk) hkv
    · intro hall
      have hscan : scanChosen v ((sortedMajors m).headD 0) (sortedMajors m)
          = (sortedMajors m).headD 0 :=
        scanChosen_of_all_lt v _ _ (fun x hx => hall x ((hmem x).mp hx))
      intro k hk
      rw [hc, hscan]
      exact sorted_headD_le _ hs k ((hmem k).mpr hk)

/-- With no parsed major, `_expected_versions_for` picks the greatest map
key. -/
theorem chooseKey_none_spec (m : VersionMap) (hm : m ≠ []) :
    chooseKey m none ∈ m.map Prod.fst
    ∧ ∀ k ∈ m.map Prod.fst, k ≤ chooseKey m none := by
  have hs := sortedMajors_sorted m
  have hperm := sortedMajors_perm m
  have hne := sortedMajors_ne_nil m hm
  have hc : chooseKey m none = (sortedMajors m).getLastD 0 := rfl
  constructor
  · rw [hc, ← hperm.mem_iff]; exact getLastD_mem _ 0 hne
  · intro k hk
    rw [hc]
    exact sorted_le_getLastD _ hs k (hperm.mem_iff.mpr hk)

/-- The chosen key is monotone in the queried major version. -/
theorem chooseKey_mono (m : VersionMap) (hm : m ≠ []) (v1 v2 : Int)
    (h : v1 ≤ v2) : chooseKey m (some v1) ≤ chooseKey m (some v2) := by
  obtain ⟨hmem1, hle1, hlow1⟩ := chooseKey_some_spec m hm v1
  obtain ⟨hmem2, hle2, _⟩ := chooseKey_some_spec m hm v2
  by_cases hex : ∃ k ∈ m.map Prod.fst, k ≤ v1
  · obtain ⟨hc1v, _⟩ := hle1 hex
    obtain ⟨_, hmax2⟩ := hle2 ⟨chooseKey m (some v1), hmem1, le_trans hc1v h⟩
    exact hmax2 _ hmem1 (le_trans hc1v h)
  · push_neg at hex
    exact hlow1 hex _ hmem2

/-! ## Claims C1, C9, C10 — the expected-version lookup -/

/-- C1: for every non-empty version map and queried major `v`,
`_expected_versions_for` selects the entry of a map key that is (i) the
greatest key `≤ v` whenever some key is `≤ v` (which covers `v` at or
above all keys), and (ii) the smallest key when `v` lies below every key
— clamping at both ends — and the returned dict is exactly that key's
entry. -/
theorem expectedVersionsFor_clamped_greatest_le
    (m : VersionMap) (hm : m ≠ []) (v : Int) :
    chooseKey m (some v) ∈ m.map Prod.fst
    ∧ ((∃ k ∈ m.map Prod.fst, k ≤ v) →
        chooseKey m (some v) ≤ v
        ∧ ∀ k ∈ m.map Prod.fst, k ≤ v → k ≤ chooseKey m (some v))
    ∧ ((∀ k ∈ m.map Prod.fst, v < k) →
        ∀ k ∈ m.map Prod.fst, chooseKey m (some v) ≤ k)
    ∧ expectedVersionsFor m (some v)
        = (m.lookup (chooseKey m (some v))).getD [] := by
  obtain ⟨h1, h2, h3⟩ := chooseKey_some_spec m hm v
  exact ⟨h1, h2, h3, by simp only [expectedVersionsFor, if_neg hm]⟩

/-- Witness for C1 at the addon's own map and Kodi 19. -/
theorem expectedVersionsFor_clamped_greatest_le_witness :
    KODI_DB_VERSION_MAP ≠ []
    ∧ (chooseKey KODI_DB_VERSION_MAP (some 19) ∈ KODI_DB_VERSION_MAP.map Prod.fst
      ∧ ((∃ k ∈ KODI_DB_VERSION_MAP.map Prod.fst, k ≤ 19) →
          chooseKey KODI_DB_VERSION_MAP (some 19) ≤ 19
          ∧ ∀ k ∈ KODI_DB_VERSION_MAP.map Prod.fst, k ≤ 19 →
              k ≤ chooseKey KODI_DB_VERSION_MAP (some 19))
      ∧ ((∀ k ∈ KODI_DB_VERSION_MAP.map Prod.fst, 19 < k) →
          ∀ k ∈ KODI_DB_VERSION_MAP.map Prod.fst,
            chooseKey KODI_DB_VERSION_MAP (some 19) ≤ k)
      ∧ expectedVersionsFor KODI_DB_VERSION_MAP (some 19)
          = (KODI_DB_VERSION_MAP.lookup
              (chooseKey KODI_DB_VERSION_MAP (some 19))).getD []) :=
  ⟨by decide,
    expectedVersionsFor_clamped_greatest_le KODI_DB_VERSION_MAP (by decide) 19⟩

/-- C9 counterexample: over arbitrary version maps the lookup is *not*
monotone in the queried major version.  On the two-entry map
`{10: {"MyVideos": "50"}, 20: {"MyVideos": "40"}}` the queried majors
`10 ≤ 20` give tokens `50` and `40`: the higher query returns the
strictly lower token. -/
theorem expectedVersionsFor_token_mono_cex :
    (10 : Int) ≤ 20
    ∧ ((Py.toIntOption (((expectedVersionsFor
          [(10, [("MyVideos", "50")]), (20, [("MyVideos", "40")])]
          (some 20)).lookup "MyVideos").getD "0")).getD 0 : Int)
      < (Py.toIntOption (((expectedVersionsFor
          [(10, [("MyVideos", "50")]), (20, [("MyVideos", "40")])]
          (some 10)).lookup "MyVideos").getD "0")).getD 0 := by
  decide

/-- The expected tokens of `KODI_DB_VERSION_MAP` are numerically
nondecreasing in the map key, for both library kinds. -/
theorem kodiMap_token_mono :
    ∀ k1 ∈ KODI_DB_VERSION_MAP.map Prod.fst,
    ∀ k2 ∈ KODI_DB_VERSION_MAP.map Prod.fst, k1 ≤ k2 →
    ∀ kind ∈ kodiDbNames,
      ((Py.toIntOption ((((KODI_DB_VERSION_MAP.lookup k1).getD
          []).lookup kind).getD "0")).getD 0 : Int)
      ≤ (Py.toIntOption ((((KODI_DB_VERSION_MAP.lookup k2).getD
          []).lookup kind).getD "0")).getD 0 := by
  decide

/-- C9 amended: for the addon's own `KODI_DB_VERSION_MAP` (whose tokens
are nondecreasing in the key) the lookup *is* monotone: querying a higher
major never returns a numerically lower expected-version token, for
either library kind. -/
theorem expectedVersionsFor_token_mono_kodiMap
    (v1 v2 : Int) (h : v1 ≤ v2) (kind : String) (hk : kind ∈ kodiDbNames) :
    ((Py.toIntOption (((expectedVersionsFor KODI_DB_VERSION_MAP
        (some v1)).lookup kind).getD "0")).getD 0 : Int)
    ≤ (Py.toIntOption (((expectedVersionsFor KODI_DB_VERSION_MAP
        (some v2)).lookup kind).getD "0")).getD 0 := by
  have hm : KODI_DB_VERSION_MAP ≠ [] := by decide
  have hmono := chooseKey_mono KODI_DB_VERSION_MAP hm v1 v2 h
  obtain ⟨hmem1, -, -⟩ := chooseKey_some_spec KODI_DB_VERSION_MAP hm v1
  obtain ⟨hmem2, -, -⟩ := chooseKey_some_spec KODI_DB_VERSION_MAP hm v2
  have he1 : expectedVersionsFor KODI_DB_VERSION_MAP (some v1)
      = (KODI_DB_VERSION_MAP.lookup
          (chooseKey KODI_DB_VERSION_MAP (some v1))).getD [] := by
    simp only [expectedVersionsFor, if_neg hm]
  have he2 : expectedVersionsFor KODI_DB_VERSION_MAP (some v2)
      = (KODI_DB_VERSION_MAP.lookup
          (chooseKey KODI_DB_VERSION_MAP (some v2))).getD [] := by
    simp only [expectedVersionsFor, if_neg hm]
  rw [he1, he2]
  exact kodiMap_token_mono _ hmem1 _ hmem2 hmono kind hk

/-- Witness for the amended C9 at `v1 = 18`, `v2 = 20`, video kind. -/
theorem expectedVersionsFor_token_mono_kodiMap_witness :
    (18 : Int) ≤ 20 ∧ "MyVideos" ∈ kodiDbNames
    ∧ ((Py.toIntOption (((expectedVersionsFor KODI_DB_VERSION_MAP
        (some 18)).lookup "MyVideos").getD "0")).getD 0 : Int)
      ≤ (Py.toIntOption (((expectedVersionsFor KODI_DB_VERSION_MAP
        (some 20)).lookup "MyVideos").getD "0")).getD 0 :=
  ⟨by decide, by decide,
    expectedVersionsFor_token_mono_kodiMap 18 20 (by decide) "MyVideos"
      (by decide)⟩

/-- C10: when the application version string does not parse
(`_parse_kodi_major` returns `None`), the expected-versions lookup
returns the entry of the greatest key of the (non-empty) map; on the
addon's own map that is the Kodi 21 entry, not an empty dict. -/
theorem expectedVersionsFor_unparsed_newest
    (m : VersionMap) (hm : m ≠ []) (ver : Option String)
    (hp : parseKodiMajor ver = none) :
    chooseKey m none ∈ m.map Prod.fst
    ∧ (∀ k ∈ m.map Prod.fst, k ≤ chooseKey m none)
    ∧ expectedVersionsFor m (parseKodiMajor ver)
        = (m.lookup (chooseKey m none)).getD []
    ∧ expectedVersionsFor KODI_DB_VERSION_MAP none
        = [("MyVideos", "122"), ("MyMusic", "84")] := by
  obtain ⟨h1, h2⟩ := chooseKey_none_spec m hm
  refine ⟨h1, h2, ?_, by decide⟩
  rw [hp]
  simp only [expectedVersionsFor, if_neg hm]

/-- Witness for C10 at the addon's map and the unparsable version text
`"Unknown"`. -/
theorem expectedVersionsFor_unparsed_newest_witness :
    KODI_DB_VERSION_MAP ≠ []
    ∧ parseKodiMajor (some "Unknown") = none
    ∧ (chooseKey KODI_DB_VERSION_MAP none ∈ KODI_DB_VERSION_MAP.map Prod.fst
      ∧ (∀ k ∈ KODI_DB_VERSION_MAP.map Prod.fst,
          k ≤ chooseKey KODI_DB_VERSION_MAP none)
      ∧ expectedVersionsFor KODI_DB_VERSION_MAP (parseKodiMajor (some "Unknown"))
          = (KODI_DB_VERSION_MAP.lookup
              (chooseKey KODI_DB_VERSION_MAP none)).getD []
      ∧ expectedVersionsFor KODI_DB_VERSION_MAP none
          = [("MyVideos", "122"), ("MyMusic", "84")]) :=
  ⟨by decide, by decide,
    expectedVersionsFor_unparsed_newest KODI_DB_VERSION_MAP (by decide)
      (some "Unknown") (by decide)⟩

/-! ## Lemmas about the per-table migration loop -/

theorem insertIgnore_name (t : MTable) (r : List Val) :
    (insertIgnore t r).name = t.name := by
  unfold insertIgnore
  split <;> rfl

theorem insertIgnore_keyCols (t : MTable) (r : List Val) :
    (insertIgnore t r).keyCols = t.keyCols := by
  unfold insertIgnore
  split <;> rfl

theorem insertIgnoreAll_name (vs : List (List Val)) :
    ∀ t : MTable, (insertIgnoreAll t vs).name = t.name := by
  induction vs with
  | nil => intro t; rfl
  | cons v rest ih =>
      intro t
      show (insertIgnoreAll (insertIgnore t v) rest).name = t.name
      rw [ih, insertIgnore_name]

theorem insertIgnoreAll_keyCols (vs : List (List Val)) :
    ∀ t : MTable, (insertIgnoreAll t vs).keyCols = t.keyCols := by
  induction vs with
  | nil => intro t; rfl
  | cons v rest ih =>
      intro t
      show (insertIgnoreAll (insertIgnore t v) rest).keyCols = t.keyCols
      rw [ih, insertIgnore_keyCols]

theorem mem_rows_insertIgnore (t : MTable) (r x : List Val) (h : x ∈ t.rows) :
    x ∈ (insertIgnore t r).rows := by
  unfold insertIgnore
  split
  · exact h
  · exact List.mem_append_left _ h

theorem hasKeyOf_insertIgnore_self (t : MTable) (r : List Val) :
    hasKeyOf (insertIgnore t r) r = true := by
  by_cases h : hasKeyOf t r = true
  · unfold insertIgnore
    rw [if_pos h]
    exact h
  · unfold insertIgnore
    rw [if_neg h]
    unfold hasKeyOf
    simp only [List.any_append, List.any_cons, List.any_nil]
    rw [beq_self_eq_true]
    simp

theorem hasKeyOf_mono_insertIgnore (t : MTable) (w r : List Val)
    (h : hasKeyOf t r = true) : hasKeyOf (insertIgnore t w) r = true := by
  unfold insertIgnore
  split
  · exact h
  · unfold hasKeyOf at h ⊢
    simp only [List.any_append]
    rw [h]
    rfl

theorem hasKeyOf_mono_insertIgnoreAll (vs : List (List Val)) :
    ∀ (t : MTable) (r : List Val), hasKeyOf t r = true →
      hasKeyOf (insertIgnoreAll t vs) r = true := by
  induction vs with
  | nil => intro t r h; exact h
  | cons v rest ih =>
      intro t r h
      exact ih (insertIgnore t v) r (hasKeyOf_mono_insertIgnore t v r h)

theorem hasKeyOf_insertIgnoreAll_self (vs : List (List Val)) :
    ∀ (t : MTable), ∀ v ∈ vs, hasKeyOf (insertIgnoreAll t vs) v = true := by
  induction vs with
  | nil => intro t v hv; simp at hv
  | cons w rest ih =>
      intro t v hv
      rcases List.mem_cons.mp hv with h | h
      · subst h
        exact hasKeyOf_mono_insertIgnoreAll rest (insertIgnore t v) v
          (hasKeyOf_insertIgnore_self t v)
      · exact ih (insertIgnore t w) v h

theorem insertIgnoreAll_of_allKeys (vs : List (List Val)) :
    ∀ (t : MTable), (∀ v ∈ vs, hasKeyOf t v = true) →
      insertIgnoreAll t vs = t := by
  induction vs with
  | nil => intro t _; rfl
  | cons v rest ih =>
      intro t h
      have hv : insertIgnore t v = t := by
        unfold insertIgnore
        rw [if_pos (h v (by simp))]
      show insertIgnoreAll (insertIgnore t v) rest = t
      rw [hv]
      exact ih t (fun w hw => h w (List.mem_cons_of_mem v hw))

/-- Re-running the ignore-on-duplicate batch over a table it has already
been run on changes nothing. -/
theorem insertIgnoreAll_idem (t : MTable) (vs : List (List Val)) :
    insertIgnoreAll (insertIgnoreAll t vs) vs = insertIgnoreAll t vs :=
  insertIgnoreAll_of_allKeys vs _ (hasKeyOf_insertIgnoreAll_self vs t)

theorem mysqlTableExists_cons (a : MTable) (l : MState) (nm : String) :
    mysqlTableExists (a :: l) nm = ((a.name == nm) || mysqlTableExists l nm) := by
  simp [mysqlTableExists]

theorem getTable_cons (a : MTable) (l : MState) (nm : String) :
    getTable (a :: l) nm
      = if a.name == nm then some a else getTable l nm := by
  unfold getTable
  rw [List.find?_cons]
  by_cases h : (a.name == nm) = true
  · simp [h]
  · rw [Bool.not_eq_true] at h
    simp [h]

theorem applyInsert_elem_name (t : MTable) (n : String)
    (vs : List (List Val)) :
    (if t.name = n then insertIgnoreAll t vs else t).name = t.name := by
  split
  · rw [insertIgnoreAll_name]
  · rfl

theorem mysqlTableExists_applyInsert (st : MState) (n : String)
    (vs : List (List Val)) (nm : String) :
    mysqlTableExists (applyInsert st n vs) nm = mysqlTableExists st nm := by
  induction st with
  | nil => rfl
  | cons t rest ih =>
      show mysqlTableExists ((if t.name = n then insertIgnoreAll t vs else t)
        :: applyInsert rest n vs) nm = mysqlTableExists (t :: rest) nm
      rw [mysqlTableExists_cons, mysqlTableExists_cons,
        applyInsert_elem_name, ih]

theorem getTable_applyInsert_ne (st : MState) (n : String)
    (vs : List (List Val)) (nm : String) (hne : nm ≠ n) :
    getTable (applyInsert st n vs) nm = getTable st nm := by
  induction st with
  | nil => rfl
  | cons t rest ih =>
      show getTable ((if t.name = n then insertIgnoreAll t vs else t)
        :: applyInsert rest n vs) nm = getTable (t :: rest) nm
      rw [getTable_cons, getTable_cons, applyInsert_elem_name, ih]
      by_cases ht : (t.name == nm) = true
      · have htn : t.name ≠ n := fun h => hne ((beq_iff_eq.mp ht).symm.trans h)
        rw [if_pos ht, if_pos ht, if_neg htn]
      · rw [Bool.not_eq_true] at ht
        rw [if_neg (by simp [ht]), if_neg (by simp [ht])]

theorem mysqlTableExists_false_getTable (st : MState) (n : String)
    (h : mysqlTableExists st n = false) : getTable st n = none := by
  unfold mysqlTableExists at h
  unfold getTable
  rw [List.find?_eq_none]
  intro t ht
  exact (List.any_eq_false.mp h) t ht

theorem migrateTable_fst_cases (f : List String) (st : MState) (t : STable) :
    (migrateTable f st t).1 = st
    ∨ (migrateTable f st t).1 = applyInsert st t.name (tableValues t) := by
  unfold migrateTable
  split
  · left; rfl
  · split
    · left; rfl
    · split
      · left; rfl
      · right; rfl

theorem mysqlTableExists_migrateTable (f : List String) (st : MState)
    (t : STable) (nm : String) :
    mysqlTableExists (migrateTable f st t).1 nm = mysqlTableExists st nm := by
  rcases migrateTable_fst_cases f st t with h | h
  · rw [h]
  · rw [h, mysqlTableExists_applyInsert]

theorem getTable_migrateTable_ne (f : List String) (st : MState) (t : STable)
    (nm : String) (hne : nm ≠ t.name) :
    getTable (migrateTable f st t).1 nm = getTable st nm := by
  rcases migrateTable_fst_cases f st t with h | h
  · rw [h]
  · rw [h, getTable_applyInsert_ne st t.name _ nm hne]

theorem mysqlTableExists_migrateLoop (f : List String) (src : List STable) :
    ∀ (st : MState) (nm : String),
      mysqlTableExists (migrateLoop f src st).1 nm = mysqlTableExists st nm := by
  induction src with
  | nil => intro st nm; rfl
  | cons u rest ih =>
      intro st nm
      show mysqlTableExists (migrateLoop f rest (migrateTable f st u).1).1 nm
          = mysqlTableExists st nm
      rw [ih, mysqlTableExists_migrateTable]

theorem getTable_migrateLoop_of_not_name (f : List String)
    (src : List STable) :
    ∀ (st : MState) (nm : String), (∀ u ∈ src, u.name ≠ nm) →
      getTable (migrateLoop f src st).1 nm = getTable st nm := by
  induction src with
  | nil => intro st nm _; rfl
  | cons u rest ih =>
      intro st nm h
      show getTable (migrateLoop f rest (migrateTable f st u).1).1 nm
          = getTable st nm
      rw [ih _ nm (fun w hw => h w (List.mem_cons_of_mem u hw)),
        getTable_migrateTable_ne f st u nm (fun he => h u (by simp) he.symm)]

theorem migrateTable_missing (f : List String) (st : MState) (t : STable)
    (h : mysqlTableExists st t.name = false) :
    migrateTable f st t = (st, .missingSkipped) := by
  unfold migrateTable
  rw [if_pos]
  simp [h]

theorem migrateTable_empty (f : List String) (st : MState) (t : STable)
    (hex : mysqlTableExists st t.name = true) (hrows : t.rows = []) :
    migrateTable f st t = (st, .emptyNoop) := by
  unfold migrateTable
  rw [if_neg (by simp [hex]), if_pos hrows]

theorem migrateTable_failed (f : List String) (st : MState) (t : STable)
    (hex : mysqlTableExists st t.name = true) (hrows : t.rows ≠ [])
    (hf : t.name ∈ f) :
    migrateTable f st t = (st, .failed) := by
  unfold migrateTable
  rw [if_neg (by simp [hex]), if_neg hrows, if_pos hf]

theorem migrateTable_insert (f : List String) (st : MState) (t : STable)
    (hex : mysqlTableExists st t.name = true) (hrows : t.rows ≠ [])
    (hf : t.name ∉ f) :
    migrateTable f st t
      = (applyInsert st t.name (tableValues t),
        .migrated (tableValues t).length) := by
  unfold migrateTable
  rw [if_neg (by simp [hex]), if_neg hrows, if_neg hf]

theorem migrateLoop_cons_eq (f : List String) (u : STable)
    (rest : List STable) (st : MState) :
    migrateLoop f (u :: rest) st
      = ((migrateLoop f rest (migrateTable f st u).1).1,
        (u.name, (migrateTable f st u).2)
          :: (migrateLoop f rest (migrateTable f st u).1).2) := rfl

/-- A source table whose batch insert raises is recorded as failed and
its target table is left exactly as it was before the whole loop. -/
theorem migrateLoop_failed_table (f : List String) (src : List STable) :
    ∀ (st : MState) (t : STable), t ∈ src → (src.map STable.name).Nodup →
      mysqlTableExists st t.name = true → t.rows ≠ [] → t.name ∈ f →
      (t.name, TableOutcome.failed) ∈ (migrateLoop f src st).2
      ∧ getTable (migrateLoop f src st).1 t.name = getTable st t.name := by
  induction src with
  | nil => intro st t hmem; simp at hmem
  | cons u rest ih =>
      intro st t hmem hnodup hex hrows hf
      rw [List.map_cons, List.nodup_cons] at hnodup
      rcases List.mem_cons.mp hmem with heq | hmem'
      · subst heq
        rw [migrateLoop_cons_eq, migrateTable_failed f st t hex hrows hf]
        constructor
        · exact List.mem_cons_self _ _
        · exact getTable_migrateLoop_of_not_name f rest st t.name
            (fun w hw he => hnodup.1 (he ▸ List.mem_map_of_mem STable.name hw))
      · have hne : u.name ≠ t.name :=
          fun h => hnodup.1 (h ▸ List.mem_map_of_mem STable.name hmem')
        rw [migrateLoop_cons_eq]
        have hex1 : mysqlTableExists (migrateTable f st u).1 t.name = true := by
          rw [mysqlTableExists_migrateTable]; exact hex
        obtain ⟨h1, h2⟩ := ih (migrateTable f st u).1 t hmem' hnodup.2 hex1
          hrows hf
        refine ⟨List.mem_cons_of_mem _ h1, ?_⟩
        rw [h2, getTable_migrateTable_ne f st u t.name (Ne.symm hne)]

/-- A source table absent from the target is recorded as skipped; it
still does not exist in the target afterwards (nothing was created or
transferred for it). -/
theorem migrateLoop_missing_table (f : List String) (src : List STable) :
    ∀ (st : MState) (t : STable), t ∈ src →
      mysqlTableExists st t.name = false →
      (t.name, TableOutcome.missingSkipped) ∈ (migrateLoop f src st).2
      ∧ getTable (migrateLoop f src st).1 t.name = none := by
  induction src with
  | nil => intro st t hmem; simp at hmem
  | cons u rest ih =>
      intro st t hmem hex
      have hfinal : getTable (migrateLoop f (u :: rest) st).1 t.name = none :=
        mysqlTableExists_false_getTable _ _
          (by rw [mysqlTableExists_migrateLoop]; exact hex)
      refine ⟨?_, hfinal⟩
      rcases List.mem_cons.mp hmem with heq | hmem'
      · subst heq
        rw [migrateLoop_cons_eq, migrateTable_missing f st t hex]
        exact List.mem_cons_self _ _
      · rw [migrateLoop_cons_eq]
        have hex1 : mysqlTableExists (migrateTable f st u).1 t.name = false := by
          rw [mysqlTableExists_migrateTable]; exact hex
        exact List.mem_cons_of_mem _ (ih (migrateTable f st u).1 t hmem' hex1).1

/-- Every outcome the loop records under a name that never exists in the
target is the missing-table skip — in particular never a failure. -/
theorem migrateLoop_only_missing (f : List String) (src : List STable) :
    ∀ (st : MState) (nm : String), mysqlTableExists st nm = false →
      ∀ o, (nm, o) ∈ (migrateLoop f src st).2 →
        o = TableOutcome.missingSkipped := by
  induction src with
  | nil => intro st nm _ o ho; simp [migrateLoop] at ho
  | cons u rest ih =>
      intro st nm hex o ho
      rw [migrateLoop_cons_eq] at ho
      rcases List.mem_cons.mp ho with heq | ho'
      · have hn : u.name = nm ∧ (migrateTable f st u).2 = o := by
          constructor
          · exact congrArg Prod.fst heq.symm
          · exact congrArg Prod.snd heq.symm
        have hexu : mysqlTableExists st u.name = false := by
          rw [hn.1]; exact hex
        rw [migrateTable_missing f st u hexu] at hn
        exact hn.2.symm
      · exact ih (migrateTable f st u).1 nm
          (by rw [mysqlTableExists_migrateTable]; exact hex) o ho'

/-- A source table that exists in the target but holds zero rows is
passed over: recorded as the empty no-op, and its target table is
untouched. -/
theorem migrateLoop_empty_table (f : List String) (src : List STable) :
    ∀ (st : MState) (t : STable), t ∈ src → (src.map STable.name).Nodup →
      mysqlTableExists st t.name = true → t.rows = [] →
      (t.name, TableOutcome.emptyNoop) ∈ (migrateLoop f src st).2
      ∧ getTable (migrateLoop f src st).1 t.name = getTable st t.name := by
  induction src with
  | nil => intro st t hmem; simp at hmem
  | cons u rest ih =>
      intro st t hmem hnodup hex hrows
      rw [List.map_cons, List.nodup_cons] at hnodup
      rcases List.mem_cons.mp hmem with heq | hmem'
      · subst heq
        rw [migrateLoop_cons_eq, migrateTable_empty f st t hex hrows]
        constructor
        · exact List.mem_cons_self _ _
        · exact getTable_migrateLoop_of_not_name f rest st t.name
            (fun w hw he => hnodup.1 (he ▸ List.mem_map_of_mem STable.name hw))
      · have hne : u.name ≠ t.name :=
          fun h => hnodup.1 (h ▸ List.mem_map_of_mem STable.name hmem')
        rw [migrateLoop_cons_eq]
        have hex1 : mysqlTableExists (migrateTable f st u).1 t.name = true := by
          rw [mysqlTableExists_migrateTable]; exact hex
        obtain ⟨h1, h2⟩ := ih (migrateTable f st u).1 t hmem' hnodup.2 hex1
          hrows
        refine ⟨List.mem_cons_of_mem _ h1, ?_⟩
        rw [h2, getTable_migrateTable_ne f st u t.name (Ne.symm hne)]

/-- `migrate_database` succeeds exactly when its four pre-loop guards
pass; the per-table outcomes never influence the return value. -/
theorem migrateDatabase_success_eq (env : MigrateEnv) (dbn : Option String)
    (src : List STable) (st : MState) :
    (migrateDatabase env dbn src st).success
      = (env.connectorAvailable && env.sourceExists
        && !((dbn.getD "") == "") && env.connectOk) := by
  unfold migrateDatabase
  split_ifs with h1 h2 h3 h4 <;> simp_all

/-- With all guards passing, `migrate_database` runs the loop and
reports success. -/
theorem migrateDatabase_ok (fl : List String) (dbn : Option String)
    (hdb : (dbn.getD "") ≠ "") (src : List STable) (st : MState) :
    migrateDatabase ⟨true, true, true, fl⟩ dbn src st
      = ⟨true, true, (migrateLoop fl src st).1, (migrateLoop fl src st).2,
        countMigrated (migrateLoop fl src st).2⟩ := by
  unfold migrateDatabase
  rw [if_neg (by simp), if_neg (by simp), if_neg hdb, if_neg (by simp)]

/-! ## Idempotence machinery for C2

A migration step never renames a target table, never changes its key
schema, and never removes a row; `tExt`/`sExt` capture this and let the
keys present after the first run be carried to the end of it. -/

/-- One target table only extends: identity and key schema kept, rows
only added. -/
def tExt (a b : MTable) : Prop :=
  b.name = a.name ∧ b.keyCols = a.keyCols ∧ ∀ r ∈ a.rows, r ∈ b.rows

/-- The whole target state only extends, table by table. -/
def sExt (s1 s2 : MState) : Prop :=
  List.Forall₂ tExt s1 s2

theorem tExt_refl (a : MTable) : tExt a a :=
  ⟨rfl, rfl, fun _ h => h⟩

theorem tExt_trans {a b c : MTable} (h1 : tExt a b) (h2 : tExt b c) :
    tExt a c :=
  ⟨h2.1.trans h1.1, h2.2.1.trans h1.2.1,
    fun r hr => h2.2.2 r (h1.2.2 r hr)⟩

theorem sExt_refl (s : MState) : sExt s s := by
  induction s with
  | nil => exact List.Forall₂.nil
  | cons a l ih => exact List.Forall₂.cons (tExt_refl a) ih

theorem sExt_trans : ∀ {s1 s2 s3 : MState}, sExt s1 s2 → sExt s2 s3 →
    sExt s1 s3 := by
  intro s1 s2 s3 h12
  induction h12 generalizing s3 with
  | nil => intro h23; cases h23; exact List.Forall₂.nil
  | cons hab h ih =>
      intro h23
      cases h23 with
      | cons hbc h' => exact List.Forall₂.cons (tExt_trans hab hbc) (ih h')

theorem tExt_insertIgnore (t : MTable) (r : List Val) :
    tExt t (insertIgnore t r) :=
  ⟨insertIgnore_name t r, insertIgnore_keyCols t r,
    fun x hx => mem_rows_insertIgnore t r x hx⟩

theorem tExt_insertIgnoreAll (vs : List (List Val)) :
    ∀ t : MTable, tExt t (insertIgnoreAll t vs) := by
  induction vs with
  | nil => intro t; exact tExt_refl t
  | cons v rest ih =>
      intro t
      exact tExt_trans (tExt_insertIgnore t v) (ih (insertIgnore t v))

theorem sExt_applyInsert (st : MState) (n : String) (vs : List (List Val)) :
    sExt st (applyInsert st n vs) := by
  induction st with
  | nil => exact List.Forall₂.nil
  | cons t rest ih =>
      refine List.Forall₂.cons ?_ ih
      show tExt t (if t.name = n then insertIgnoreAll t vs else t)
      split
      · exact tExt_insertIgnoreAll vs t
      · exact tExt_refl t

theorem sExt_migrateTable (f : List String) (st : MState) (t : STable) :
    sExt st (migrateTable f st t).1 := by
  rcases migrateTable_fst_cases f st t with h | h
  · rw [h]; exact sExt_refl st
  · rw [h]; exact sExt_applyInsert st t.name (tableValues t)

theorem sExt_migrateLoop (f : List String) (src : List STable) :
    ∀ st : MState, sExt st (migrateLoop f src st).1 := by
  induction src with
  | nil => intro st; exact sExt_refl st
  | cons u rest ih =>
      intro st
      rw [migrateLoop_cons_eq]
      exact sExt_trans (sExt_migrateTable f st u) (ih (migrateTable f st u).1)

theorem hasKeyOf_of_tExt {a b : MTable} (h : tExt a b) (r : List Val)
    (hk : hasKeyOf a r = true) : hasKeyOf b r = true := by
  unfold hasKeyOf at hk ⊢
  obtain ⟨r0, hr0, hbeq⟩ := List.any_eq_true.mp hk
  exact List.any_eq_true.mpr ⟨r0, h.2.2 r0 hr0, by rw [h.2.1]; exact hbeq⟩

theorem sExt_mem_right : ∀ {s1 s2 : MState}, sExt s1 s2 →
    ∀ b ∈ s2, ∃ a ∈ s1, tExt a b := by
  intro s1 s2 h
  induction h with
  | nil => intro b hb; simp at hb
  | cons hab hrest ih =>
      intro b hb
      rcases List.mem_cons.mp hb with heq | hmem
      · exact ⟨_, by simp, heq ▸ hab⟩
      · obtain ⟨a, ha, hext⟩ := ih b hmem
        exact ⟨a, List.mem_cons_of_mem _ ha, hext⟩

/-- Every target table that carries a given source table's name already
holds every key of that source table's batch. -/
def satFor (st : MState) (t : STable) : Prop :=
  ∀ mt ∈ st, mt.name = t.name → ∀ v ∈ tableValues t, hasKeyOf mt v = true

theorem satFor_of_sExt {st st' : MState} {t : STable} (h : sExt st st')
    (hs : satFor st t) : satFor st' t := by
  intro mt' hmem' hname v hv
  obtain ⟨mt, hmem, hext⟩ := sExt_mem_right h mt' hmem'
  have hmn : mt.name = t.name := by rw [← hext.1]; exact hname
  exact hasKeyOf_of_tExt hext v (hs mt hmem hmn v hv)

theorem satFor_applyInsert_self (st : MState) (t : STable) :
    satFor (applyInsert st t.name (tableValues t)) t := by
  intro mt' hmem' hname v hv
  unfold applyInsert at hmem'
  obtain ⟨mt, hmt, heq⟩ := List.mem_map.mp hmem'
  by_cases h : mt.name = t.name
  · rw [if_pos h] at heq
    rw [← heq]
    exact hasKeyOf_insertIgnoreAll_self _ mt v hv
  · rw [if_neg h] at heq
    exact absurd (heq ▸ hname) h

theorem applyInsert_eq_self (st : MState) (n : String) (vs : List (List Val))
    (h : ∀ mt ∈ st, mt.name = n → ∀ v ∈ vs, hasKeyOf mt v = true) :
    applyInsert st n vs = st := by
  induction st with
  | nil => rfl
  | cons mt rest ih =>
      show (if mt.name = n then insertIgnoreAll mt vs else mt)
        :: applyInsert rest n vs = mt :: rest
      have h1 : (if mt.name = n then insertIgnoreAll mt vs else mt) = mt := by
        split
        · next hc => exact insertIgnoreAll_of_allKeys vs mt (h mt (by simp) hc)
        · rfl
      rw [h1, ih (fun w hw => h w (List.mem_cons_of_mem _ hw))]

/-- After one pass of the loop, every table that took the insert branch
is saturated: all its batch keys are present in the final state. -/
theorem migrateLoop_sat (f : List String) (src : List STable) :
    ∀ (st : MState) (t : STable), t ∈ src →
      mysqlTableExists st t.name = true → t.rows ≠ [] → t.name ∉ f →
      satFor (migrateLoop f src st).1 t := by
  induction src with
  | nil => intro st t hmem; simp at hmem
  | cons u rest ih =>
      intro st t hmem hex hrows hnf
      rcases List.mem_cons.mp hmem with heq | hmem'
      · subst heq
        rw [migrateLoop_cons_eq, migrateTable_insert f st t hex hrows hnf]
        exact satFor_of_sExt (sExt_migrateLoop f rest _)
          (satFor_applyInsert_self st t)
      · rw [migrateLoop_cons_eq]
        have hex1 : mysqlTableExists (migrateTable f st u).1 t.name = true := by
          rw [mysqlTableExists_migrateTable]; exact hex
        exact ih (migrateTable f st u).1 t hmem' hex1 hrows hnf

/-- A pass of the loop over an already-saturated state changes nothing. -/
theorem migrateLoop_noop (f : List String) (src : List STable) :
    ∀ st : MState,
      (∀ t ∈ src, mysqlTableExists st t.name = true → t.rows ≠ [] →
        t.name ∉ f → satFor st t) →
      (migrateLoop f src st).1 = st := by
  induction src with
  | nil => intro st _; rfl
  | cons u rest ih =>
      intro st h
      rw [migrateLoop_cons_eq]
      have hstep : (migrateTable f st u).1 = st := by
        by_cases hex : mysqlTableExists st u.name = true
        · by_cases hrows : u.rows = []
          · rw [migrateTable_empty f st u hex hrows]
          · by_cases hf : u.name ∈ f
            · rw [migrateTable_failed f st u hex hrows hf]
            · rw [migrateTable_insert f st u hex hrows hf]
              show applyInsert st u.name (tableValues u) = st
              apply applyInsert_eq_self
              intro mt hmt hname v hv
              exact h u (by simp) hex hrows hf mt hmt hname v hv
        · have hex' : mysqlTableExists st u.name = false := by
            simpa using hex
          rw [migrateTable_missing f st u hex']
      rw [hstep]
      exact ih st (fun t ht => h t (List.mem_cons_of_mem _ ht))

theorem leadsWith_nil (xs : List Char) : Py.leadsWith xs [] = true := by
  cases xs <;> rfl

theorem leadsWith_append : ∀ (ps xs ys : List Char),
    Py.leadsWith xs ps = true → Py.leadsWith (xs ++ ys) ps = true := by
  intro ps
  induction ps with
  | nil => intro xs ys _; exact leadsWith_nil (xs ++ ys)
  | cons p rest ih =>
      intro xs ys h
      cases xs with
      | nil => simp [Py.leadsWith] at h
      | cons x xs' =>
          rw [List.cons_append]
          simp only [Py.leadsWith, Bool.and_eq_true] at h ⊢
          exact ⟨h.1, ih xs' ys h.2⟩

/-- The statement text `_build_insert_sql` produces always begins with
the ignore-on-duplicate insert verb. -/
theorem buildInsertSql_starts (tbl : String) (cols : List String) :
    Py.startsWith (buildInsertSql tbl cols) "INSERT IGNORE INTO" = true := by
  unfold Py.startsWith buildInsertSql
  simp only [String.data_append, List.append_assoc]
  exact leadsWith_append _ _ _ (by decide)

/-! ## The lexicographic order used by `sorted` on file names -/

theorem lexLe_refl : ∀ a : List Char, Py.lexLe a a = true := by
  intro a
  induction a with
  | nil => rfl
  | cons c cs ih => simp [Py.lexLe, ih]

theorem lexLe_trans : ∀ a b c : List Char,
    Py.lexLe a b = true → Py.lexLe b c = true → Py.lexLe a c = true := by
  intro a
  induction a with
  | nil => intro b c _ _; rfl
  | cons x xs ih =>
      intro b c hab hbc
      cases b with
      | nil => simp [Py.lexLe] at hab
      | cons y ys =>
          cases c with
          | nil => simp [Py.lexLe] at hbc
          | cons z zs =>
              simp only [Py.lexLe] at hab hbc ⊢
              by_cases hxy : x = y
              · subst hxy
                rw [if_pos rfl] at hab
                by_cases hxz : x = z
                · subst hxz
                  rw [if_pos rfl] at hbc
                  rw [if_pos rfl]
                  exact ih ys zs hab hbc
                · rw [if_neg hxz] at hbc
                  rw [if_neg hxz]
                  exact hbc
              · rw [if_neg hxy] at hab
                have hlt1 : x < y := of_decide_eq_true hab
                by_cases hyz : y = z
                · subst hyz
                  rw [if_neg hxy]
                  exact hab
                · rw [if_neg hyz] at hbc
                  have hlt2 : y < z := of_decide_eq_true hbc
                  have hxz : x < z := lt_trans hlt1 hlt2
                  rw [if_neg (ne_of_lt hxz)]
                  exact decide_eq_true hxz

theorem lexLe_total : ∀ a b : List Char,
    Py.lexLe a b = true ∨ Py.lexLe b a = true := by
  intro a
  induction a with
  | nil => intro b; left; rfl
  | cons x xs ih =>
      intro b
      cases b with
      | nil => right; rfl
      | cons y ys =>
          simp only [Py.lexLe]
          by_cases hxy : x = y
          · subst hxy
            rw [if_pos rfl, if_pos rfl]
            exact ih ys
          · rw [if_neg hxy, if_neg (Ne.symm hxy)]
            rcases lt_or_gt_of_ne hxy with h | h
            · left; exact decide_eq_true h
            · right; exact decide_eq_true h

instance : IsTotal String (fun a b => Py.strLe a b = true) :=
  ⟨fun a b => lexLe_total a.data b.data⟩

instance : IsTrans String (fun a b => Py.strLe a b = true) :=
  ⟨fun a b c => lexLe_trans a.data b.data c.data⟩

theorem getLast?_mem {α : Type} : ∀ (l : List α) (p : α),
    l.getLast? = some p → p ∈ l := by
  intro l
  induction l with
  | nil => intro p h; simp at h
  | cons x rest ih =>
      intro p h
      cases rest with
      | nil =>
          simp at h
          simp [h]
      | cons y t =>
          rw [List.getLast?_cons_cons] at h
          exact List.mem_cons_of_mem x (ih p h)

theorem sorted_strLe_getLast : ∀ (s : List String) (p : String),
    s.Sorted (fun a b => Py.strLe a b = true) → s.getLast? = some p →
    ∀ q ∈ s, Py.strLe q p = true := by
  intro s
  induction s with
  | nil => intro p _ h; simp at h
  | cons x rest ih =>
      intro p hs hl q hq
      cases rest with
      | nil =>
          simp at hl
          subst hl
          simp at hq
          subst hq
          exact lexLe_refl q.data
      | cons y t =>
          rw [List.getLast?_cons_cons] at hl
          rcases List.mem_cons.mp hq with heq | hmem
          · subst heq
            exact List.rel_of_sorted_cons hs p (getLast?_mem _ p hl)
          · exact ih p (List.sorted_cons.mp hs).2 hl q hmem

/-! ## Claims C2–C8 -/

/-- C2: with the environment healthy and no table raising, running
`migrate_database` a second time against the same source and the
already-populated target succeeds again and leaves every target table's
row set exactly as the first run left it — the generated insert statement
is ignore-on-duplicate, so a re-run inserts nothing and overwrites
nothing. -/
theorem migrateDatabase_idempotent (dbn : Option String)
    (hdb : (dbn.getD "") ≠ "") (src : List STable) (st : MState) :
    (migrateDatabase ⟨true, true, true, []⟩ dbn src st).success = true
    ∧ (migrateDatabase ⟨true, true, true, []⟩ dbn src
        (migrateDatabase ⟨true, true, true, []⟩ dbn src st).finalState).success
      = true
    ∧ (migrateDatabase ⟨true, true, true, []⟩ dbn src
        (migrateDatabase ⟨true, true, true, []⟩ dbn src
          st).finalState).finalState
      = (migrateDatabase ⟨true, true, true, []⟩ dbn src st).finalState
    ∧ ∀ (tbl : String) (cols : List String),
        Py.startsWith (buildInsertSql tbl cols) "INSERT IGNORE INTO" = true := by
  rw [migrateDatabase_ok [] dbn hdb src st]
  refine ⟨rfl, ?_, ?_, fun tbl cols => buildInsertSql_starts tbl cols⟩
  · rw [migrateDatabase_ok [] dbn hdb src _]
  · rw [migrateDatabase_ok [] dbn hdb src _]
    show (migrateLoop [] src (migrateLoop [] src st).1).1
        = (migrateLoop [] src st).1
    apply migrateLoop_noop
    intro t ht hex hrows _
    have hex0 : mysqlTableExists st t.name = true := by
      rw [← mysqlTableExists_migrateLoop [] src st t.name]
      exact hex
    exact migrateLoop_sat [] src st t ht hex0 hrows (by simp)

/-- Witness for C2 on a one-table source against an empty target
table. -/
theorem migrateDatabase_idempotent_witness :
    ((some "MyVideos121" : Option String).getD "") ≠ ""
    ∧ ((migrateDatabase ⟨true, true, true, []⟩ (some "MyVideos121")
        [⟨"movie", [[("idMovie", 1), ("c00", 7)]]⟩]
        [⟨"movie", [0], []⟩]).success = true
      ∧ (migrateDatabase ⟨true, true, true, []⟩ (some "MyVideos121")
          [⟨"movie", [[("idMovie", 1), ("c00", 7)]]⟩]
          (migrateDatabase ⟨true, true, true, []⟩ (some "MyVideos121")
            [⟨"movie", [[("idMovie", 1), ("c00", 7)]]⟩]
            [⟨"movie", [0], []⟩]).finalState).success = true
      ∧ (migrateDatabase ⟨true, true, true, []⟩ (some "MyVideos121")
          [⟨"movie", [[("idMovie", 1), ("c00", 7)]]⟩]
          (migrateDatabase ⟨true, true, true, []⟩ (some "MyVideos121")
            [⟨"movie", [[("idMovie", 1), ("c00", 7)]]⟩]
            [⟨"movie", [0], []⟩]).finalState).finalState
        = (migrateDatabase ⟨true, true, true, []⟩ (some "MyVideos121")
            [⟨"movie", [[("idMovie", 1), ("c00", 7)]]⟩]
            [⟨"movie", [0], []⟩]).finalState
      ∧ ∀ (tbl : String) (cols : List String),
          Py.startsWith (buildInsertSql tbl cols) "INSERT IGNORE INTO"
            = true) :=
  ⟨by decide,
    migrateDatabase_idempotent (some "MyVideos121") (by decide)
      [⟨"movie", [[("idMovie", 1), ("c00", 7)]]⟩] [⟨"movie", [0], []⟩]⟩

/-- C3 counterexample: a source table (`movie`) that exists in the target
but holds zero rows is passed over by `continue` *before*
`migrated_tables` is incremented, so the reported migrated-table count is
0, not 1, and the outcome is the empty no-op rather than a migration of 0
rows. -/
theorem migrateDatabase_zero_rows_cex :
    (migrateDatabase ⟨true, true, true, []⟩ (some "MyVideos121")
        [⟨"movie", []⟩] [⟨"movie", [0], []⟩]).outcomes
      = [("movie", TableOutcome.emptyNoop)]
    ∧ (migrateDatabase ⟨true, true, true, []⟩ (some "MyVideos121")
        [⟨"movie", []⟩] [⟨"movie", [0], []⟩]).migratedTables = 0
    ∧ ¬ (migrateDatabase ⟨true, true, true, []⟩ (some "MyVideos121")
        [⟨"movie", []⟩] [⟨"movie", [0], []⟩]).migratedTables = 1 := by
  decide

/-- C3 amended: a source table with zero rows that exists in the target
is a successful no-op — nothing is inserted, nothing fails, the target
table is untouched and the whole migration still succeeds — but it is
*not* counted in the reported migrated-table count. -/
theorem migrateDatabase_zero_rows (fl : List String) (dbn : Option String)
    (hdb : (dbn.getD "") ≠ "") (src : List STable) (st : MState) (t : STable)
    (hmem : t ∈ src) (hnodup : (src.map STable.name).Nodup)
    (hex : mysqlTableExists st t.name = true) (hrows : t.rows = []) :
    (migrateDatabase ⟨true, true, true, fl⟩ dbn src st).success = true
    ∧ (t.name, TableOutcome.emptyNoop)
        ∈ (migrateDatabase ⟨true, true, true, fl⟩ dbn src st).outcomes
    ∧ getTable (migrateDatabase ⟨true, true, true, fl⟩ dbn src st).finalState
        t.name = getTable st t.name := by
  rw [migrateDatabase_ok fl dbn hdb src st]
  obtain ⟨h1, h2⟩ := migrateLoop_empty_table fl src st t hmem hnodup hex hrows
  exact ⟨rfl, h1, h2⟩

/-- Witness for the amended C3. -/
theorem migrateDatabase_zero_rows_witness :
    ((some "MyVideos121" : Option String).getD "") ≠ ""
    ∧ (⟨"movie", []⟩ : STable) ∈ [(⟨"movie", []⟩ : STable)]
    ∧ (([(⟨"movie", []⟩ : STable)].map STable.name)).Nodup
    ∧ mysqlTableExists [⟨"movie", [0], []⟩] "movie" = true
    ∧ (⟨"movie", []⟩ : STable).rows = []
    ∧ ((migrateDatabase ⟨true, true, true, []⟩ (some "MyVideos121")
        [⟨"movie", []⟩] [⟨"movie", [0], []⟩]).success = true
      ∧ ("movie", TableOutcome.emptyNoop)
          ∈ (migrateDatabase ⟨true, true, true, []⟩ (some "MyVideos121")
            [⟨"movie", []⟩] [⟨"movie", [0], []⟩]).outcomes
      ∧ getTable (migrateDatabase ⟨true, true, true, []⟩ (some "MyVideos121")
            [⟨"movie", []⟩] [⟨"movie", [0], []⟩]).finalState "movie"
        = getTable [⟨"movie", [0], []⟩] "movie") :=
  ⟨by decide, by decide, by decide, by decide, by decide,
    migrateDatabase_zero_rows [] (some "MyVideos121") (by decide)
      [⟨"movie", []⟩] [⟨"movie", [0], []⟩] ⟨"movie", []⟩ (by decide)
      (by decide) (by decide) (by decide)⟩

/-- C5: a table whose batch insert raises is rolled back in isolation —
its target table is exactly as before the run — it is recorded as
failed, and the migration still returns overall success; and in general
`migrate_database` returns `False` exactly for the configuration- and
connection-level guards, never for per-table failures. -/
theorem migrateDatabase_failed_table_nonfatal (fl : List String)
    (dbn : Option String) (hdb : (dbn.getD "") ≠ "") (src : List STable)
    (st : MState) (t : STable) (hmem : t ∈ src)
    (hnodup : (src.map STable.name).Nodup)
    (hex : mysqlTableExists st t.name = true) (hrows : t.rows ≠ [])
    (hf : t.name ∈ fl) :
    (migrateDatabase ⟨true, true, true, fl⟩ dbn src st).success = true
    ∧ (t.name, TableOutcome.failed)
        ∈ (migrateDatabase ⟨true, true, true, fl⟩ dbn src st).outcomes
    ∧ getTable (migrateDatabase ⟨true, true, true, fl⟩ dbn src st).finalState
        t.name = getTable st t.name
    ∧ ∀ (env : MigrateEnv) (dbn' : Option String) (src' : List STable)
        (st' : MState),
        (migrateDatabase env dbn' src' st').success
          = (env.connectorAvailable && env.sourceExists
            && !((dbn'.getD "") == "") && env.connectOk) := by
  rw [migrateDatabase_ok fl dbn hdb src st]
  obtain ⟨h1, h2⟩ := migrateLoop_failed_table fl src st t hmem hnodup hex
    hrows hf
  exact ⟨rfl, h1, h2, migrateDatabase_success_eq⟩

/-- Witness for C5: the single table `movie` fails; the run still
succeeds and the target keeps its pre-existing row. -/
theorem migrateDatabase_failed_table_nonfatal_witness :
    ((some "MyVideos121" : Option String).getD "") ≠ ""
    ∧ (⟨"movie", [[("idMovie", 1)]]⟩ : STable) ∈
        [(⟨"movie", [[("idMovie", 1)]]⟩ : STable)]
    ∧ (([(⟨"movie", [[("idMovie", 1)]]⟩ : STable)].map STable.name)).Nodup
    ∧ mysqlTableExists [⟨"movie", [0], [[5]]⟩] "movie" = true
    ∧ (⟨"movie", [[("idMovie", 1)]]⟩ : STable).rows ≠ []
    ∧ "movie" ∈ ["movie"]
    ∧ ((migrateDatabase ⟨true, true, true, ["movie"]⟩ (some "MyVideos121")
        [⟨"movie", [[("idMovie", 1)]]⟩] [⟨"movie", [0], [[5]]⟩]).success
          = true
      ∧ ("movie", TableOutcome.failed)
          ∈ (migrateDatabase ⟨true, true, true, ["movie"]⟩
            (some "MyVideos121") [⟨"movie", [[("idMovie", 1)]]⟩]
            [⟨"movie", [0], [[5]]⟩]).outcomes
      ∧ getTable (migrateDatabase ⟨true, true, true, ["movie"]⟩
            (some "MyVideos121") [⟨"movie", [[("idMovie", 1)]]⟩]
            [⟨"movie", [0], [[5]]⟩]).finalState "movie"
        = getTable [⟨"movie", [0], [[5]]⟩] "movie"
      ∧ ∀ (env : MigrateEnv) (dbn' : Option String) (src' : List STable)
          (st' : MState),
          (migrateDatabase env dbn' src' st').success
            = (env.connectorAvailable && env.sourceExists
              && !((dbn'.getD "") == "") && env.connectOk)) :=
  ⟨by decide, by decide, by decide, by decide, by decide, by decide,
    migrateDatabase_failed_table_nonfatal ["movie"] (some "MyVideos121")
      (by decide) [⟨"movie", [[("idMovie", 1)]]⟩] [⟨"movie", [0], [[5]]⟩]
      ⟨"movie", [[("idMovie", 1)]]⟩ (by decide) (by decide) (by decide)
      (by decide) (by decide)⟩

/-- C8: a source table absent from the target is skipped: it is recorded
as skipped, never as failed, nothing is transferred for it (it still does
not exist in the target afterwards), and the migration succeeds
overall. -/
theorem migrateDatabase_missing_table_skipped (fl : List String)
    (dbn : Option String) (hdb : (dbn.getD "") ≠ "") (src : List STable)
    (st : MState) (t : STable) (hmem : t ∈ src)
    (hex : mysqlTableExists st t.name = false) :
    (migrateDatabase ⟨true, true, true, fl⟩ dbn src st).success = true
    ∧ (t.name, TableOutcome.missingSkipped)
        ∈ (migrateDatabase ⟨true, true, true, fl⟩ dbn src st).outcomes
    ∧ (∀ o, (t.name, o)
        ∈ (migrateDatabase ⟨true, true, true, fl⟩ dbn src st).outcomes →
        o = TableOutcome.missingSkipped)
    ∧ getTable (migrateDatabase ⟨true, true, true, fl⟩ dbn src st).finalState
        t.name = none := by
  rw [migrateDatabase_ok fl dbn hdb src st]
  obtain ⟨h1, h2⟩ := migrateLoop_missing_table fl src st t hmem hex
  exact ⟨rfl, h1, fun o ho => migrateLoop_only_missing fl src st t.name hex
    o ho, h2⟩

/-- Witness for C8: source has `actor`, target only has `movie`. -/
theorem migrateDatabase_missing_table_skipped_witness :
    ((some "MyVideos121" : Option String).getD "") ≠ ""
    ∧ (⟨"actor", [[("idActor", 1)]]⟩ : STable) ∈
        [(⟨"actor", [[("idActor", 1)]]⟩ : STable)]
    ∧ mysqlTableExists [⟨"movie", [0], []⟩] "actor" = false
    ∧ ((migrateDatabase ⟨true, true, true, []⟩ (some "MyVideos121")
        [⟨"actor", [[("idActor", 1)]]⟩] [⟨"movie", [0], []⟩]).success = true
      ∧ ("actor", TableOutcome.missingSkipped)
          ∈ (migrateDatabase ⟨true, true, true, []⟩ (some "MyVideos121")
            [⟨"actor", [[("idActor", 1)]]⟩] [⟨"movie", [0], []⟩]).outcomes
      ∧ (∀ o, ("actor", o)
          ∈ (migrateDatabase ⟨true, true, true, []⟩ (some "MyVideos121")
            [⟨"actor", [[("idActor", 1)]]⟩] [⟨"movie", [0], []⟩]).outcomes →
          o = TableOutcome.missingSkipped)
      ∧ getTable (migrateDatabase ⟨true, true, true, []⟩ (some "MyVideos121")
            [⟨"actor", [[("idActor", 1)]]⟩]
            [⟨"movie", [0], []⟩]).finalState "actor" = none) :=
  ⟨by decide, by decide, by decide,
    migrateDatabase_missing_table_skipped [] (some "MyVideos121") (by decide)
      [⟨"actor", [[("idActor", 1)]]⟩] [⟨"movie", [0], []⟩]
      ⟨"actor", [[("idActor", 1)]]⟩ (by decide) (by decide)⟩

/-- C7: `_resolve_sqlite_path` returns the lexicographically-greatest
glob match; and when no file matches, `_migrate_kodi_library` stops with
the source-not-found error, overall success `False`, before any
`connector.connect` call. -/
theorem resolveSqlitePath_greatest_sourceNotFound :
    (∀ (found : List String) (p : String), resolveSqlitePath found = some p →
      p ∈ found ∧ ∀ q ∈ found, Py.strLe q p = true)
    ∧ (∀ (env : LibEnv) (kind dbn : String),
        env.connectorAvailable = true →
        resolveDatabaseName env.config kind = some dbn →
        env.globMatches = [] →
        migrateKodiLibrary env kind
          = ⟨false, false, some LibErr.sourceNotFound,
            env.targetState, [], 0⟩) := by
  constructor
  · intro found p hp
    unfold resolveSqlitePath at hp
    have hs := List.sorted_insertionSort (fun a b => Py.strLe a b = true) found
    have hperm := List.perm_insertionSort
      (fun a b => Py.strLe a b = true) found
    refine ⟨hperm.mem_iff.mp (getLast?_mem _ p hp), ?_⟩
    intro q hq
    exact sorted_strLe_getLast _ p hs hp q (hperm.mem_iff.mpr hq)
  · intro env kind dbn hconn hdb hglob
    unfold migrateKodiLibrary
    rw [if_neg (by simp [hconn]), hdb, hglob]
    rfl

/-- Witness for C7: a two-file glob answer picks the greater name, and an
empty glob answer stops the run before connecting. -/
theorem resolveSqlitePath_greatest_sourceNotFound_witness :
    (resolveSqlitePath ["MyVideos119.db", "MyVideos121.db"]
        = some "MyVideos121.db"
      → ("MyVideos121.db" ∈ ["MyVideos119.db", "MyVideos121.db"]
        ∧ ∀ q ∈ ["MyVideos119.db", "MyVideos121.db"],
            Py.strLe q "MyVideos121.db" = true))
    ∧ resolveSqlitePath ["MyVideos119.db", "MyVideos121.db"]
        = some "MyVideos121.db"
    ∧ migrateKodiLibrary
        ⟨true, some ⟨none, none, none, some "121"⟩, [],
          ⟨some "h", some "u", some "p", none⟩, true, true, [], [], []⟩
        "MyVideos"
      = ⟨false, false, some LibErr.sourceNotFound, [], [], 0⟩ :=
  ⟨fun h => (resolveSqlitePath_greatest_sourceNotFound).1
      ["MyVideos119.db", "MyVideos121.db"] "MyVideos121.db" h,
    by decide,
    (resolveSqlitePath_greatest_sourceNotFound).2
      ⟨true, some ⟨none, none, none, some "121"⟩, [],
        ⟨some "h", some "u", some "p", none⟩, true, true, [], [], []⟩
      "MyVideos" "MyVideos121" (by decide) (by decide) (by decide)⟩

/-- C4 counterexample: a failed connection and a connected server with no
Kodi databases produce the *same* result value — the single
`{"error": ...}` dict — so the two situations are not distinguishable by
the caller, contrary to the claim. -/
theorem checkKodiDbs_conflated_cex :
    checkKodiDbs (.connFail "connection refused") "20.1"
      = checkKodiDbs (.ok []) "20.1"
    ∧ checkKodiDbs (.connFail "connection refused") "20.1"
      = .err localized30012 := by
  decide

/-- C4 amended: `get_existing_kodi_dbs` swallows the connection failure
(logging it and returning the empty dict), so `check_kodi_dbs` answers
the same `{"error": <localized 30012>}` both when the connection fails —
the detail text is dropped — and when the server simply has no matching
database. -/
theorem checkKodiDbs_conflated (detail : String) (ver : String) :
    checkKodiDbs (.connFail detail) ver = .err localized30012
    ∧ checkKodiDbs (.ok []) ver = .err localized30012 :=
  ⟨rfl, rfl⟩

/-- C6: with Kodi 20 (expected video token "121"), discovered suffixes
{121, 119} classify as `incompatible` containing only the 119 entry,
while {121, 122} classify as `compatible` containing both — a discovered
suffix at or above the expected token is compatible, a smaller one is
not. -/
theorem checkKodiDbs_classification :
    checkKodiDbs (.ok ["MyVideos121", "MyVideos119"]) "20.1"
      = .incompatible [("MyVideos119", "119")]
    ∧ checkKodiDbs (.ok ["MyVideos121", "MyVideos122"]) "20.1"
      = .compatible [("MyVideos121", "121"), ("MyVideos122", "122")]
    ∧ (kodiDbInfo KODI_DB_VERSION_MAP "20.1").lookup "MyVideos"
      = some "121"
    ∧ isVersionCompatible KODI_DB_VERSION_MAP "MyVideos122" "20.1" = true
    ∧ isVersionCompatible KODI_DB_VERSION_MAP "MyVideos121" "20.1" = true
    ∧ isVersionCompatible KODI_DB_VERSION_MAP "MyVideos119" "20.1" = false := by
  decide

end MysqlAssistant
